import Mathlib

/-!
Verification of the MCP connection-pool core (`src/connections.py`).

The Python module is embedded shallowly: Python dicts become association
lists over `String` keys, object mutation becomes explicit state passing,
`raise` becomes `Except`, and the external MCP library (transport spawn,
session construction, `session.initialize()`, `list_tools`, `call_tool`)
becomes outcome parameters supplied by the caller of the model, since those
calls cross the process boundary.  Locks make the locked regions atomic in
the sequential model; the concurrency claim about `get_session` is settled
against a dedicated interleaving semantics further below in which the pool
lock is explicit.
-/

namespace MCPPool

instance {ε α : Type} [DecidableEq ε] [DecidableEq α] :
    DecidableEq (Except ε α) := fun x y =>
  match x, y with
  | .ok a, .ok b =>
    if h : a = b then isTrue (by rw [h])
    else isFalse (by intro hh; cases hh; exact h rfl)
  | .error a, .error b =>
    if h : a = b then isTrue (by rw [h])
    else isFalse (by intro hh; cases hh; exact h rfl)
  | .ok _, .error _ => isFalse (by intro hh; cases hh)
  | .error _, .ok _ => isFalse (by intro hh; cases hh)

/-- Python dict lookup `d.get(k)` on an association list (first match). -/
def lookupAL {α : Type} (l : List (String × α)) (k : String) : Option α :=
  match l with
  | [] => none
  | (k', v) :: t => if k' = k then some v else lookupAL t k

/-- Python dict assignment `d[k] = v`: replace in place if the key exists,
append otherwise (insertion order preserved, as for a Python dict). -/
def insertAL {α : Type} (l : List (String × α)) (k : String) (v : α) :
    List (String × α) :=
  match l with
  | [] => [(k, v)]
  | (k', v') :: t => if k' = k then (k, v) :: t else (k', v') :: insertAL t k v

/-- Python dict deletion `d.pop(k, None)` / `del d[k]`. -/
def eraseAL {α : Type} (l : List (String × α)) (k : String) :
    List (String × α) :=
  match l with
  | [] => []
  | (k', v') :: t => if k' = k then eraseAL t k else (k', v') :: eraseAL t k

/-- Key set of a Python dict whose values we do not track: membership
insert (no duplicate keys, insertion order kept). -/
def insertKey (l : List String) (k : String) : List String :=
  if k ∈ l then l else l ++ [k]

/-- `del d[k]` on a tracked key set. -/
def eraseKey (l : List String) (k : String) : List String :=
  l.filter (fun k' => k' ≠ k)

/-- `TransportType` enum from `connections.py`. -/
inductive TransportType
  | stdio
  | sse
  | streamableHttp
deriving DecidableEq, Repr

/-- `MCPServerConfig` (pydantic model): identity and launch parameters. -/
structure MCPServerConfig where
  name : String
  command : String
  args : List String
  env : List (String × String)
  transport : TransportType
  url : Option String
deriving DecidableEq, Repr

/-- An initialized MCP `ClientSession` is opaque to the pool: it is
identified by a numeric handle produced at connection-creation time. -/
abbrev Session := Nat

/-- A tool descriptor returned by `session.list_tools()` is opaque. -/
abbrev Tool := String

/-- The errors the pool raises (`ValueError` / `RuntimeError` /
`NotImplementedError` in Python), plus a constructor for errors arising in
the external MCP library calls. -/
inductive PoolErr
  | notRunning
  | notConfigured (name : String)
  | alreadyConfigured (name : String)
  | notFound (name : String)
  | hasActive (name : String)
  | notImplementedTransport (t : TransportType)
  | notInit (name : String)
  | spawnFailed
  | sessionEnterFailed
  | initFailed
  | protocolErr (msg : String)
  | keyErr (name : String)
deriving DecidableEq, Repr

/-- `SharedConnection` dataclass: one shared MCP connection with reference
counting.  `_ref_count` is a Python `int`, so it is embedded as `Int`; that
it never becomes negative is a property of the operations, not of the type. -/
structure SharedConnection where
  config : MCPServerConfig
  session : Option Session
  _ref_count : Int
  _connected : Bool
deriving DecidableEq, Repr

namespace SharedConnection

/-- `SharedConnection` constructed as `SharedConnection(config=config)`:
dataclass defaults `session=None`, `_ref_count=0`, `_connected=False`. -/
def mk0 (config : MCPServerConfig) : SharedConnection :=
  { config := config, session := none, _ref_count := 0, _connected := false }

/-- Property `is_connected`: `self._connected and self.session is not None`. -/
def is_connected (c : SharedConnection) : Bool :=
  c._connected && c.session.isSome

/-- `acquire()` (lines 62–68): under the connection lock, increment
`_ref_count`, then raise if `session is None`, else return the session.
The increment happens before the `None` check, exactly as in the source. -/
def acquire (c : SharedConnection) : SharedConnection × Except PoolErr Session :=
  let c' := { c with _ref_count := c._ref_count + 1 }
  match c.session with
  | none => (c', .error (.notInit c.config.name))
  | some s => (c', .ok s)

/-- `release()` (lines 70–74): `self._ref_count = max(0, self._ref_count - 1)`
and return the resulting count. -/
def release (c : SharedConnection) : SharedConnection × Int :=
  let r := max 0 (c._ref_count - 1)
  ({ c with _ref_count := r }, r)

end SharedConnection

/-- One acquire or release call on a `SharedConnection`. -/
inductive RefOp
  | acq
  | rel
deriving DecidableEq, Repr

/-- Apply a sequence of acquire/release calls to a connection, keeping only
the connection state (results discarded). -/
def applyRefOps (c : SharedConnection) (ops : List RefOp) : SharedConnection :=
  ops.foldl
    (fun c op =>
      match op with
      | .acq => (c.acquire).1
      | .rel => (c.release).1)
    c

/-- Result value of `session.call_tool(...)`, opaque to the pool. -/
abbrev CallToolResult := Nat

/-- Outcome of the external steps of stdio connection creation, supplied by
the environment: the transport spawn (`stdio_client(...).__aenter__`), the
session construction (`ClientSession(...).__aenter__`) and the protocol
handshake (`session.initialize()`) each either succeed or raise; on full
success the environment hands back the fresh session handle. -/
inductive StdioOutcome
  | spawnFail
  | sessionEnterFail
  | initFail
  | ok (sess : Session)
deriving DecidableEq, Repr

/-- `MCPConnectionPool` state (`__init__`, lines 104–116).  `_max_idle_time`
is a float that is stored and never read, so it is omitted; `_cleanup_tasks`
and `_context_managers` are tracked by key (their values are opaque task and
context-manager objects). -/
structure PoolState where
  _connections : List (String × SharedConnection)
  _configs : List (String × MCPServerConfig)
  _running : Bool
  _cleanup_tasks : List String
  _context_managers : List String
deriving DecidableEq, Repr

/-- A freshly constructed pool: empty maps, not running. -/
def PoolState.init : PoolState :=
  { _connections := [], _configs := [], _running := false,
    _cleanup_tasks := [], _context_managers := [] }

namespace MCPConnectionPool

/-- `add_server` (lines 128–140): raise `ValueError` on a name collision,
else `self._configs[config.name] = config`. -/
def add_server (st : PoolState) (config : MCPServerConfig) :
    PoolState × Except PoolErr Unit :=
  if (lookupAL st._configs config.name).isSome then
    (st, .error (.alreadyConfigured config.name))
  else
    ({ st with _configs := insertAL st._configs config.name config }, .ok ())

/-- `remove_server` (lines 142–157): raise if the name is unknown or its
connection has `ref_count > 0`; otherwise pop the config and any connection
entry.  No transport teardown happens here (`_close_connection` is not
called), so `_context_managers` is left untouched. -/
def remove_server (st : PoolState) (name : String) :
    PoolState × Except PoolErr Unit :=
  if (lookupAL st._configs name).isNone then
    (st, .error (.notFound name))
  else if (match lookupAL st._connections name with
           | some c => decide (0 < c._ref_count)
           | none => false) then
    (st, .error (.hasActive name))
  else
    ({ st with _configs := eraseAL st._configs name,
               _connections := eraseAL st._connections name }, .ok ())

/-- `_create_connection` (lines 159–198).  For a stdio transport the three
external steps run in order; the transport context manager is stored under
`name` as soon as the spawn succeeds (line 181) and the session context
manager under `name + "_session"` once the session is entered (line 186),
both *before* `initialize()` runs, so a late failure leaves them behind.
Any non-stdio transport raises `NotImplementedError` before touching
anything. -/
def _create_connection (st : PoolState) (name : String) (oc : StdioOutcome) :
    PoolState × Except PoolErr SharedConnection :=
  match lookupAL st._configs name with
  | none => (st, .error (.keyErr name))
  | some config =>
    match config.transport with
    | .stdio =>
      match oc with
      | .spawnFail => (st, .error .spawnFailed)
      | .sessionEnterFail =>
        ({ st with _context_managers := insertKey st._context_managers name },
         .error .sessionEnterFailed)
      | .initFail =>
        let cms :=
          insertKey (insertKey st._context_managers name) (name ++ "_session")
        ({ st with _context_managers := cms }, .error .initFailed)
      | .ok sess =>
        let cms :=
          insertKey (insertKey st._context_managers name) (name ++ "_session")
        ({ st with _context_managers := cms },
         .ok { config := config, session := some sess, _ref_count := 0,
               _connected := true })
    | t => (st, .error (.notImplementedTransport t))

/-- `connection = self._connections[name]` (line 260) followed by
`session = await connection.acquire()` (line 263): acquiring mutates the
shared object the map points at, so the updated connection is stored back. -/
def acquire_stored (st : PoolState) (name : String) :
    PoolState × Except PoolErr Session :=
  match lookupAL st._connections name with
  | none => (st, .error (.keyErr name))
  | some c =>
    let p := c.acquire
    ({ st with _connections := insertAL st._connections name p.1 }, p.2)

/-- Entry half of the `get_session` context manager (lines 232–263): the
not-running and not-configured guards, then — atomically, because the pool
lock is held and `_create_connection` is the only `await` inside the locked
block — the check-and-create step, then `acquire()` on the per-connection
lock.  A creation failure propagates with `self._connections` unassigned. -/
def get_session_enter (st : PoolState) (name : String) (oc : StdioOutcome) :
    PoolState × Except PoolErr Session :=
  if st._running = false then (st, .error .notRunning)
  else if (lookupAL st._configs name).isNone then
    (st, .error (.notConfigured name))
  else if (match lookupAL st._connections name with
           | none => true
           | some c => !c.is_connected) then
    match _create_connection st name oc with
    | (st1, .error e) => (st1, .error e)
    | (st1, .ok conn) =>
      acquire_stored
        { st1 with _connections := insertAL st1._connections name conn } name
  else
    acquire_stored st name

/-- Exit half of the `get_session` context manager (lines 267–270): the
`finally` block releases the reference on the shared connection object. -/
def get_session_exit (st : PoolState) (name : String) : PoolState :=
  match lookupAL st._connections name with
  | none => st
  | some c =>
    { st with _connections := insertAL st._connections name (c.release).1 }

/-- A whole scoped use of `get_session`: enter, and when the body was
reached, the `finally` release on exit.  If entry itself raised (including
when `acquire` raised before the `try` block), no release runs. -/
def get_session_scoped (st : PoolState) (name : String) (oc : StdioOutcome) :
    PoolState :=
  match get_session_enter st name oc with
  | (st1, .error _) => st1
  | (st1, .ok _) => get_session_exit st1 name

/-- `_close_connection` (lines 200–230): no-op when the name has no
connection entry; otherwise sets `_connected = False`, exits and drops the
session and transport context managers (errors swallowed), and deletes the
connection entry — the net state effect is the three deletions. -/
def _close_connection (st : PoolState) (name : String) : PoolState :=
  if (lookupAL st._connections name).isNone then st
  else
    { st with
      _context_managers :=
        eraseKey (eraseKey st._context_managers (name ++ "_session")) name,
      _connections := eraseAL st._connections name }

/-- `start` (lines 306–309): `self._running = True`. -/
def start (st : PoolState) : PoolState :=
  { st with _running := true }

/-- `stop` (lines 311–324): clear `_running`, cancel-and-clear the cleanup
tasks, then `_close_connection` for a snapshot of the connection keys. -/
def stop (st : PoolState) : PoolState :=
  let st1 := { st with _running := false, _cleanup_tasks := [] }
  (st1._connections.map Prod.fst).foldl _close_connection st1

/-- `call_tool` (lines 289–304): open a scoped session and forward one
`session.call_tool(tool_name, arguments)`; `callResult` stands for that
external call's outcome.  Protocol errors are not caught: the scope's
`finally` releases the reference and the error propagates. -/
def call_tool (st : PoolState) (server_name _tool_name : String)
    (_arguments : List (String × String)) (oc : StdioOutcome)
    (callResult : Except PoolErr CallToolResult) :
    PoolState × Except PoolErr CallToolResult :=
  match get_session_enter st server_name oc with
  | (st1, .error e) => (st1, .error e)
  | (st1, .ok _) =>
    match callResult with
    | .ok r => (get_session_exit st1 server_name, .ok r)
    | .error e => (get_session_exit st1 server_name, .error e)

/-- One iteration of the `get_all_tools` loop body (lines 279–286): try a
scoped session and `session.list_tools()` (outcome `listTools name`); any
failure is caught and recorded as an empty list for that name. -/
def get_all_tools_step (st : PoolState) (outcomes : String → StdioOutcome)
    (listTools : String → Except PoolErr (List Tool)) (name : String) :
    PoolState × List Tool :=
  match get_session_enter st name (outcomes name) with
  | (st1, .error _) => (st1, [])
  | (st1, .ok _) =>
    match listTools name with
    | .ok ts => (get_session_exit st1 name, ts)
    | .error _ => (get_session_exit st1 name, [])

/-- The `for name in self._configs` loop of `get_all_tools`, building the
`tools` dict in iteration order. -/
def get_all_tools_go (outcomes : String → StdioOutcome)
    (listTools : String → Except PoolErr (List Tool)) :
    PoolState → List String → List (String × List Tool) →
      PoolState × List (String × List Tool)
  | st, [], acc => (st, acc)
  | st, name :: rest, acc =>
    let p := get_all_tools_step st outcomes listTools name
    get_all_tools_go outcomes listTools p.1 rest (insertAL acc name p.2)

/-- `get_all_tools` (lines 272–287): iterate over the configured names,
collecting per-server tool lists, downgrading any per-server failure to an
empty list.  The function always returns a dict — nothing escapes the
per-name `except` handler. -/
def get_all_tools (st : PoolState) (outcomes : String → StdioOutcome)
    (listTools : String → Except PoolErr (List Tool)) :
    PoolState × List (String × List Tool) :=
  get_all_tools_go outcomes listTools st (st._configs.map Prod.fst) []

/-- The tool-list entry the `get_all_tools` loop records for `name`, read
off the pool state at loop entry: empty when the scoped session or the
`list_tools` call for that name fails, the actual tool list otherwise. -/
def toolsEntry (st : PoolState) (outcomes : String → StdioOutcome)
    (listTools : String → Except PoolErr (List Tool)) (name : String) :
    List Tool :=
  match (get_session_enter st name (outcomes name)).2 with
  | .error _ => []
  | .ok _ =>
    match listTools name with
    | .ok ts => ts
    | .error _ => []

end MCPConnectionPool

/-- One public pool operation, with the external outcomes a `get_session`
use depends on supplied as data. -/
inductive PoolOp
  | addServer (config : MCPServerConfig)
  | removeServer (name : String)
  | getSession (name : String) (oc : StdioOutcome)
  | startPool
  | stopPool
deriving Repr

/-- The state effect of one public pool operation (raised errors leave the
returned state behind exactly as the Python object would be left). -/
def apply_op (st : PoolState) : PoolOp → PoolState
  | .addServer c => (MCPConnectionPool.add_server st c).1
  | .removeServer n => (MCPConnectionPool.remove_server st n).1
  | .getSession n oc => MCPConnectionPool.get_session_scoped st n oc
  | .startPool => MCPConnectionPool.start st
  | .stopPool => MCPConnectionPool.stop st

/-- Run a sequence of public operations on a freshly constructed pool. -/
def run_ops (ops : List PoolOp) : PoolState :=
  ops.foldl apply_op PoolState.init

/-!
Interleaving model for the concurrency claim about `get_session`.

N tasks concurrently run `get_session(name)` for one fixed name on a
running pool in which the name is configured (stdio) and no connection
exists yet, with the external creation steps succeeding.  The pool lock is
explicit.  A task's atomic steps are its segments between `await`
suspension points in the source:

* `ready`: `async with self._lock` plus the `name not in self._connections
  or not ...is_connected` check — no suspension separates acquiring the
  lock from the check, and on the fast path none separates the check from
  the end of the locked block either;
* `creating` → `spawned`: the transport spawn inside
  `_create_connection` (one `await`), counted;
* `spawned` → `handshaken`: the `session.initialize()` handshake (one
  `await`), counted;
* `handshaken` → `acquiring`: storing the connected `SharedConnection` in
  `self._connections[name]` and leaving the locked block;
* `acquiring` → `done`: `connection.acquire()` — increments the reference
  count, then fails iff the session is absent.

A task scheduled while blocked on the held pool lock makes no progress.
-/

/-- Program counter of one concurrent `get_session(name)` caller. -/
inductive TaskPC
  | ready
  | creating
  | spawned
  | handshaken
  | acquiring
  | done
deriving DecidableEq, Repr

/-- `pc` is inside the locked check-and-create region. -/
def inCreate (pc : TaskPC) : Bool :=
  match pc with
  | .creating | .spawned | .handshaken => true
  | _ => false

/-- `pc` has passed the transport-spawn step. -/
def pastSpawn (pc : TaskPC) : Bool :=
  match pc with
  | .spawned | .handshaken => true
  | _ => false

/-- Global state of the N concurrent `get_session(name)` callers. -/
structure CState where
  tasks : List TaskPC
  lock : Option Nat
  connLive : Bool
  spawnCount : Nat
  handshakeCount : Nat
  refCount : Nat
  acquireFails : Nat
deriving DecidableEq, Repr

/-- Scheduling task `i` for its next atomic step. -/
def cStep (s : CState) (i : Nat) : CState :=
  match s.tasks[i]? with
  | none => s
  | some pc =>
    match pc with
    | .ready =>
      match s.lock with
      | some _ => s
      | none =>
        if s.connLive then
          { s with tasks := s.tasks.set i .acquiring }
        else
          { s with tasks := s.tasks.set i .creating, lock := some i }
    | .creating =>
      { s with tasks := s.tasks.set i .spawned,
               spawnCount := s.spawnCount + 1 }
    | .spawned =>
      { s with tasks := s.tasks.set i .handshaken,
               handshakeCount := s.handshakeCount + 1 }
    | .handshaken =>
      { s with tasks := s.tasks.set i .acquiring, connLive := true,
               lock := none }
    | .acquiring =>
      if s.connLive then
        { s with tasks := s.tasks.set i .done, refCount := s.refCount + 1 }
      else
        { s with tasks := s.tasks.set i .done, refCount := s.refCount + 1,
                 acquireFails := s.acquireFails + 1 }
    | .done => s

/-- Initial state: N callers about to enter `get_session(name)`, no
connection for the name, pool lock free. -/
def cInit (n : Nat) : CState :=
  { tasks := List.replicate n .ready, lock := none, connLive := false,
    spawnCount := 0, handshakeCount := 0, refCount := 0, acquireFails := 0 }

/-- Run the tasks under an arbitrary cooperative schedule.  Every
interleaving of the N callers is `cRun n sched` for some `sched`, since
each task's next step is determined by its program counter. -/
def cRun (n : Nat) (sched : List Nat) : CState :=
  sched.foldl cStep (cInit n)

/-- The lock-phase invariant of the interleaving model: either nobody has
entered the check-and-create region yet, or exactly one task is inside it
holding the pool lock, or the connection is live and the lock is free. -/
def CInv (n : Nat) (s : CState) : Prop :=
  s.tasks.length = n ∧
  ((s.lock = none ∧ s.connLive = false ∧
      s.tasks.countP (fun pc => inCreate pc) = 0 ∧
      s.tasks.countP (fun pc => pc == .acquiring || pc == .done) = 0 ∧
      s.spawnCount = 0 ∧ s.handshakeCount = 0 ∧ s.refCount = 0 ∧
      s.acquireFails = 0) ∨
   (s.lock ≠ none ∧ s.connLive = false ∧
      s.tasks.countP (fun pc => inCreate pc) = 1 ∧
      s.tasks.countP (fun pc => pc == .acquiring || pc == .done) = 0 ∧
      s.spawnCount = s.tasks.countP (fun pc => pastSpawn pc) ∧
      s.handshakeCount = s.tasks.countP (fun pc => pc == .handshaken) ∧
      s.refCount = 0 ∧ s.acquireFails = 0) ∨
   (s.lock = none ∧ s.connLive = true ∧
      s.tasks.countP (fun pc => inCreate pc) = 0 ∧
      s.spawnCount = 1 ∧ s.handshakeCount = 1 ∧
      s.refCount = s.tasks.countP (fun pc => pc == .done) ∧
      s.acquireFails = 0))

/-- A stdio server configuration used in concrete runs. -/
def cfgA : MCPServerConfig :=
  { name := "alpha", command := "npx", args := ["-y", "server-alpha"],
    env := [], transport := .stdio, url := none }

/-- A second stdio server configuration. -/
def cfgB : MCPServerConfig :=
  { name := "beta", command := "uvx", args := ["server-beta"],
    env := [("K", "v")], transport := .stdio, url := none }

/-- An SSE server configuration (unsupported transport). -/
def cfgSse : MCPServerConfig :=
  { name := "gamma", command := "", args := [], env := [],
    transport := .sse, url := some "http://localhost:8080/sse" }

/-- A running pool in which only `cfgA` is configured and nothing is
connected. -/
def stRun : PoolState :=
  { _connections := [], _configs := [("alpha", cfgA)], _running := true,
    _cleanup_tasks := [], _context_managers := [] }

/-- A running pool with `cfgA` configured, connected, and one outstanding
reference. -/
def stBusy : PoolState :=
  { _connections :=
      [("alpha",
        { config := cfgA, session := some 7, _ref_count := 1,
          _connected := true })],
    _configs := [("alpha", cfgA)], _running := true,
    _cleanup_tasks := [], _context_managers := ["alpha", "alpha_session"] }

/-- The running pool `stRun` with `cfgB` also registered. -/
def stAB : PoolState := (MCPConnectionPool.add_server stRun cfgB).1

/-- Creation outcomes for a concrete `get_all_tools` run: "beta"'s
handshake fails, every other server connects. -/
def outcomesW : String → StdioOutcome :=
  fun nm => if nm = "beta" then .initFail else .ok 4

/-- `list_tools` outcomes for the same run: "alpha" reports two tools,
anything else raises. -/
def listToolsW : String → Except PoolErr (List Tool) :=
  fun nm => if nm = "alpha" then .ok ["t1", "t2"]
            else .error (.protocolErr "boom")

/-! Helper lemmas. -/

theorem lookupAL_insertAL {α : Type} (l : List (String × α)) (k k' : String)
    (v : α) :
    lookupAL (insertAL l k v) k' = if k' = k then some v else lookupAL l k' := by
  induction l with
  | nil =>
    simp only [insertAL, lookupAL]
    by_cases h : k' = k
    · simp [h]
    · simp [h, Ne.symm h]
  | cons hd t ih =>
    obtain ⟨k₀, v₀⟩ := hd
    by_cases h₀ : k₀ = k
    · subst h₀
      simp only [insertAL, if_pos rfl, lookupAL]
      by_cases h : k' = k₀
      · simp [h]
      · simp [h, Ne.symm h]
    · simp only [insertAL, if_neg h₀, lookupAL]
      by_cases h₁ : k₀ = k'
      · have hne : ¬ k' = k := fun hh => h₀ (h₁.trans hh)
        simp [h₁, hne]
      · simp [h₁, ih]

theorem lookupAL_eraseAL {α : Type} (l : List (String × α)) (k k' : String) :
    lookupAL (eraseAL l k) k' = if k' = k then none else lookupAL l k' := by
  induction l with
  | nil => simp [eraseAL, lookupAL]
  | cons hd t ih =>
    obtain ⟨k₀, v₀⟩ := hd
    by_cases h₀ : k₀ = k
    · subst h₀
      rw [show eraseAL ((k₀, v₀) :: t) k₀ = eraseAL t k₀ from by
        simp [eraseAL]]
      rw [ih]
      by_cases h : k' = k₀
      · simp [h]
      · simp [h, lookupAL, Ne.symm h]
    · simp only [eraseAL, if_neg h₀, lookupAL]
      by_cases h₁ : k₀ = k'
      · have hne : ¬ k' = k := fun hh => h₀ (h₁.trans hh)
        simp [h₁, hne]
      · simp [h₁, ih]

theorem applyRefOps_append (c : SharedConnection) (l₁ l₂ : List RefOp) :
    applyRefOps c (l₁ ++ l₂) = applyRefOps (applyRefOps c l₁) l₂ := by
  simp [applyRefOps, List.foldl_append]

theorem applyRefOps_acq_replicate (c : SharedConnection) (n : Nat) :
    (applyRefOps c (List.replicate n .acq))._ref_count = c._ref_count + n := by
  induction n generalizing c with
  | zero => simp [applyRefOps]
  | succ k ih =>
    rw [List.replicate_succ]
    show (applyRefOps (c.acquire).1 (List.replicate k .acq))._ref_count = _
    rw [ih]
    unfold SharedConnection.acquire
    cases c.session <;> simp <;> ring

theorem applyRefOps_rel_replicate (c : SharedConnection) (n : Nat)
    (h : 0 ≤ c._ref_count) :
    (applyRefOps c (List.replicate n .rel))._ref_count =
      max 0 (c._ref_count - n) := by
  induction n generalizing c with
  | zero => simp [applyRefOps]; omega
  | succ k ih =>
    rw [List.replicate_succ]
    show (applyRefOps (c.release).1 (List.replicate k .rel))._ref_count = _
    rw [ih]
    · unfold SharedConnection.release
      simp
      omega
    · unfold SharedConnection.release
      simp

theorem applyRefOps_nonneg (c : SharedConnection) (ops : List RefOp)
    (h : 0 ≤ c._ref_count) : 0 ≤ (applyRefOps c ops)._ref_count := by
  induction ops generalizing c with
  | nil => simpa [applyRefOps]
  | cons op t ih =>
    cases op with
    | acq =>
      show 0 ≤ (applyRefOps (c.acquire).1 t)._ref_count
      apply ih
      unfold SharedConnection.acquire
      cases c.session <;> simp <;> omega
    | rel =>
      show 0 ≤ (applyRefOps (c.release).1 t)._ref_count
      apply ih
      unfold SharedConnection.release
      simp

theorem insertAL_of_lookup_none {α : Type} (l : List (String × α))
    (k : String) (v : α) (h : lookupAL l k = none) :
    insertAL l k v = l ++ [(k, v)] := by
  induction l with
  | nil => rfl
  | cons hd t ih =>
    obtain ⟨k₀, v₀⟩ := hd
    by_cases h₀ : k₀ = k
    · rw [lookupAL, if_pos h₀] at h
      cases h
    · rw [lookupAL, if_neg h₀] at h
      rw [insertAL, if_neg h₀, ih h]
      rfl

theorem lookupAL_append {α : Type} (l₁ l₂ : List (String × α)) (k : String) :
    lookupAL (l₁ ++ l₂) k =
      match lookupAL l₁ k with
      | some v => some v
      | none => lookupAL l₂ k := by
  induction l₁ with
  | nil => rfl
  | cons hd t ih =>
    obtain ⟨k₀, v₀⟩ := hd
    by_cases h₀ : k₀ = k
    · simp [lookupAL, h₀]
    · simp only [List.cons_append, lookupAL, if_neg h₀]
      exact ih

theorem lookupAL_map_pairing {α : Type} (f : String → α) (names : List String)
    (name : String) (h : name ∈ names) :
    lookupAL (names.map fun nm => (nm, f nm)) name = some (f name) := by
  induction names with
  | nil => cases h
  | cons nm rest ih =>
    by_cases hnm : nm = name
    · subst hnm
      simp [lookupAL]
    · rcases List.mem_cons.mp h with h' | h'
      · exact absurd h'.symm hnm
      · simp only [List.map_cons, lookupAL, if_neg hnm]
        exact ih h'

theorem foldl_insertAL_fresh {α : Type} (f : String → α) (names : List String) :
    ∀ acc : List (String × α), names.Nodup →
    (∀ nm ∈ names, lookupAL acc nm = none) →
    names.foldl (fun a nm => insertAL a nm (f nm)) acc =
      acc ++ names.map (fun nm => (nm, f nm)) := by
  induction names with
  | nil => intro acc _ _; simp
  | cons nm rest ih =>
    intro acc hnd hfresh
    rw [List.foldl_cons,
      insertAL_of_lookup_none acc nm (f nm) (hfresh nm (List.mem_cons_self nm rest)),
      ih (acc ++ [(nm, f nm)]) hnd.of_cons]
    · simp
    · intro nm' hnm'
      rw [lookupAL_append, hfresh nm' (List.mem_cons_of_mem nm hnm')]
      have hne : nm ≠ nm' := by
        rintro rfl
        exact (List.nodup_cons.mp hnd).1 hnm'
      simp [lookupAL, hne]

theorem _create_connection_fields (st : PoolState) (name : String)
    (oc : StdioOutcome) :
    (MCPConnectionPool._create_connection st name oc).1._configs =
      st._configs ∧
    (MCPConnectionPool._create_connection st name oc).1._connections =
      st._connections ∧
    (MCPConnectionPool._create_connection st name oc).1._running =
      st._running := by
  unfold MCPConnectionPool._create_connection
  cases lookupAL st._configs name with
  | none => exact ⟨rfl, rfl, rfl⟩
  | some config =>
    obtain ⟨nm, cmd, as, env, tr, url⟩ := config
    cases tr <;> cases oc <;> exact ⟨rfl, rfl, rfl⟩

theorem _create_connection_snd (st : PoolState) (name : String)
    (oc : StdioOutcome) :
    (MCPConnectionPool._create_connection st name oc).2 =
      (match lookupAL st._configs name with
       | none => .error (.keyErr name)
       | some config =>
         match config.transport with
         | .stdio =>
           match oc with
           | .spawnFail => .error .spawnFailed
           | .sessionEnterFail => .error .sessionEnterFailed
           | .initFail => .error .initFailed
           | .ok sess =>
             .ok { config := config, session := some sess, _ref_count := 0,
                   _connected := true }
         | t => .error (.notImplementedTransport t)) := by
  unfold MCPConnectionPool._create_connection
  cases lookupAL st._configs name with
  | none => rfl
  | some config =>
    obtain ⟨nm, cmd, as, env, tr, url⟩ := config
    cases tr <;> cases oc <;> rfl

theorem acquire_stored_snd (st : PoolState) (name : String) :
    (MCPConnectionPool.acquire_stored st name).2 =
      (match lookupAL st._connections name with
       | none => .error (.keyErr name)
       | some c => (c.acquire).2) := by
  unfold MCPConnectionPool.acquire_stored
  cases lookupAL st._connections name <;> rfl

theorem acquire_stored_fields (st : PoolState) (name : String) :
    (MCPConnectionPool.acquire_stored st name).1._configs = st._configs ∧
    (MCPConnectionPool.acquire_stored st name).1._running = st._running := by
  unfold MCPConnectionPool.acquire_stored
  cases lookupAL st._connections name <;> exact ⟨rfl, rfl⟩

theorem acquire_stored_conn_other (st : PoolState) (name k : String)
    (hk : k ≠ name) :
    lookupAL (MCPConnectionPool.acquire_stored st name).1._connections k =
      lookupAL st._connections k := by
  unfold MCPConnectionPool.acquire_stored
  cases lookupAL st._connections name with
  | none => rfl
  | some c =>
    show lookupAL (insertAL st._connections name _) k = _
    rw [lookupAL_insertAL]
    simp [hk]

theorem get_session_enter_fields (st : PoolState) (name : String)
    (oc : StdioOutcome) :
    (MCPConnectionPool.get_session_enter st name oc).1._configs =
      st._configs ∧
    (MCPConnectionPool.get_session_enter st name oc).1._running =
      st._running := by
  unfold MCPConnectionPool.get_session_enter
  split
  · exact ⟨rfl, rfl⟩
  split
  · exact ⟨rfl, rfl⟩
  split
  · split
    next st1 e heq =>
      have hf := _create_connection_fields st name oc
      rw [heq] at hf
      exact ⟨hf.1, hf.2.2⟩
    next st1 conn heq =>
      have hf := _create_connection_fields st name oc
      rw [heq] at hf
      have ha := acquire_stored_fields
        { st1 with _connections := insertAL st1._connections name conn } name
      exact ⟨ha.1.trans hf.1, ha.2.trans hf.2.2⟩
  · exact acquire_stored_fields st name

theorem get_session_enter_conn_other (st : PoolState) (name : String)
    (oc : StdioOutcome) (k : String) (hk : k ≠ name) :
    lookupAL
        (MCPConnectionPool.get_session_enter st name oc).1._connections k =
      lookupAL st._connections k := by
  unfold MCPConnectionPool.get_session_enter
  split
  · rfl
  split
  · rfl
  split
  · split
    next st1 e heq =>
      have hf := _create_connection_fields st name oc
      rw [heq] at hf
      exact congrArg (fun l => lookupAL l k) hf.2.1
    next st1 conn heq =>
      have hf := _create_connection_fields st name oc
      rw [heq] at hf
      rw [acquire_stored_conn_other _ name k hk]
      show lookupAL (insertAL st1._connections name conn) k = _
      rw [lookupAL_insertAL, if_neg hk]
      exact congrArg (fun l => lookupAL l k) hf.2.1
  · exact acquire_stored_conn_other st name k hk

theorem get_session_enter_congr (st₁ st₂ : PoolState) (name : String)
    (oc : StdioOutcome)
    (hr : st₁._running = st₂._running)
    (hc : lookupAL st₁._configs name = lookupAL st₂._configs name)
    (hn : lookupAL st₁._connections name = lookupAL st₂._connections name) :
    (MCPConnectionPool.get_session_enter st₁ name oc).2 =
      (MCPConnectionPool.get_session_enter st₂ name oc).2 := by
  have hcreate : (MCPConnectionPool._create_connection st₁ name oc).2 =
      (MCPConnectionPool._create_connection st₂ name oc).2 := by
    rw [_create_connection_snd, _create_connection_snd, hc]
  have hmain :
      ((match MCPConnectionPool._create_connection st₁ name oc with
       | (st1, Except.error e) => (st1, Except.error e)
       | (st1, Except.ok conn) =>
         MCPConnectionPool.acquire_stored
           { st1 with
              _connections := insertAL st1._connections name conn }
           name : PoolState × Except PoolErr Session)).2 =
      ((match MCPConnectionPool._create_connection st₂ name oc with
       | (st1, Except.error e) => (st1, Except.error e)
       | (st1, Except.ok conn) =>
         MCPConnectionPool.acquire_stored
           { st1 with
              _connections := insertAL st1._connections name conn }
           name : PoolState × Except PoolErr Session)).2 := by
    rcases hcr1 : MCPConnectionPool._create_connection st₁ name oc
      with ⟨s1, r1⟩
    rcases hcr2 : MCPConnectionPool._create_connection st₂ name oc
      with ⟨s2, r2⟩
    rw [hcr1, hcr2] at hcreate
    simp only [] at hcreate
    subst hcreate
    cases r1 with
    | error e => rfl
    | ok conn =>
      rw [acquire_stored_snd, acquire_stored_snd, lookupAL_insertAL,
        lookupAL_insertAL]
      simp
  unfold MCPConnectionPool.get_session_enter
  rw [hr, hc, hn]
  by_cases h1 : st₂._running = false
  · rw [if_pos h1, if_pos h1]
  · rw [if_neg h1, if_neg h1]
    by_cases h2 : (lookupAL st₂._configs name).isNone = true
    · rw [if_pos h2, if_pos h2]
    · rw [if_neg h2, if_neg h2]
      by_cases h3 : (match lookupAL st₂._connections name with
          | none => true
          | some c => !c.is_connected) = true
      · rw [if_pos h3, if_pos h3]
        exact hmain
      · rw [if_neg h3, if_neg h3]
        rw [acquire_stored_snd, acquire_stored_snd, hn]

theorem get_session_exit_fields (st : PoolState) (name : String) :
    (MCPConnectionPool.get_session_exit st name)._configs = st._configs ∧
    (MCPConnectionPool.get_session_exit st name)._running = st._running := by
  unfold MCPConnectionPool.get_session_exit
  cases lookupAL st._connections name <;> exact ⟨rfl, rfl⟩

theorem get_session_exit_conn_other (st : PoolState) (name k : String)
    (hk : k ≠ name) :
    lookupAL (MCPConnectionPool.get_session_exit st name)._connections k =
      lookupAL st._connections k := by
  unfold MCPConnectionPool.get_session_exit
  cases lookupAL st._connections name with
  | none => rfl
  | some c =>
    show lookupAL (insertAL st._connections name _) k = _
    rw [lookupAL_insertAL]
    simp [hk]

theorem get_all_tools_step_fields (st : PoolState)
    (o : String → StdioOutcome) (lt : String → Except PoolErr (List Tool))
    (name : String) :
    (MCPConnectionPool.get_all_tools_step st o lt name).1._configs =
      st._configs ∧
    (MCPConnectionPool.get_all_tools_step st o lt name).1._running =
      st._running := by
  unfold MCPConnectionPool.get_all_tools_step
  rcases hen : MCPConnectionPool.get_session_enter st name (o name)
    with ⟨st1, r⟩
  have hf := get_session_enter_fields st name (o name)
  rw [hen] at hf
  cases r with
  | error e => exact hf
  | ok s =>
    have hx := get_session_exit_fields st1 name
    cases lt name with
    | ok ts => exact ⟨hx.1.trans hf.1, hx.2.trans hf.2⟩
    | error e => exact ⟨hx.1.trans hf.1, hx.2.trans hf.2⟩

theorem get_all_tools_step_conn_other (st : PoolState)
    (o : String → StdioOutcome) (lt : String → Except PoolErr (List Tool))
    (name k : String) (hk : k ≠ name) :
    lookupAL
        (MCPConnectionPool.get_all_tools_step st o lt name).1._connections k =
      lookupAL st._connections k := by
  unfold MCPConnectionPool.get_all_tools_step
  rcases hen : MCPConnectionPool.get_session_enter st name (o name)
    with ⟨st1, r⟩
  have hf := get_session_enter_conn_other st name (o name) k hk
  rw [hen] at hf
  cases r with
  | error e => exact hf
  | ok s =>
    have hx := get_session_exit_conn_other st1 name k hk
    cases lt name with
    | ok ts => exact hx.trans hf
    | error e => exact hx.trans hf

theorem get_all_tools_step_entry (st st0 : PoolState)
    (o : String → StdioOutcome) (lt : String → Except PoolErr (List Tool))
    (name : String)
    (hcfg : st._configs = st0._configs) (hr : st._running = st0._running)
    (hconn : lookupAL st._connections name = lookupAL st0._connections name) :
    (MCPConnectionPool.get_all_tools_step st o lt name).2 =
      MCPConnectionPool.toolsEntry st0 o lt name := by
  have he : (MCPConnectionPool.get_session_enter st name (o name)).2 =
      (MCPConnectionPool.get_session_enter st0 name (o name)).2 :=
    get_session_enter_congr st st0 name (o name) hr (by rw [hcfg]) hconn
  unfold MCPConnectionPool.get_all_tools_step MCPConnectionPool.toolsEntry
  rcases hen : MCPConnectionPool.get_session_enter st name (o name)
    with ⟨st1, r⟩
  rw [hen] at he
  rw [← he]
  cases r with
  | error e => rfl
  | ok s => cases lt name <;> rfl

theorem get_all_tools_go_spec (o : String → StdioOutcome)
    (lt : String → Except PoolErr (List Tool)) (names : List String)
    (st0 : PoolState) :
    ∀ (st : PoolState) (acc : List (String × List Tool)), names.Nodup →
    st._configs = st0._configs → st._running = st0._running →
    (∀ nm ∈ names,
      lookupAL st._connections nm = lookupAL st0._connections nm) →
    (MCPConnectionPool.get_all_tools_go o lt st names acc).2 =
      names.foldl
        (fun a nm => insertAL a nm (MCPConnectionPool.toolsEntry st0 o lt nm))
        acc := by
  induction names with
  | nil => intro st acc _ _ _ _; rfl
  | cons nm rest ih =>
    intro st acc hnd hcfg hr hconn
    simp only [MCPConnectionPool.get_all_tools_go, List.foldl_cons]
    rw [get_all_tools_step_entry st st0 o lt nm hcfg hr
      (hconn nm (List.mem_cons_self nm rest))]
    have hstep := get_all_tools_step_fields st o lt nm
    apply ih
    · exact hnd.of_cons
    · exact hstep.1.trans hcfg
    · exact hstep.2.trans hr
    · intro nm' hnm'
      have hne : nm' ≠ nm := by
        rintro rfl
        exact (List.nodup_cons.mp hnd).1 hnm'
      rw [get_all_tools_step_conn_other st o lt nm nm' hne]
      exact hconn nm' (List.mem_cons_of_mem nm hnm')

/-- C3: after N `acquire` calls followed by N `release` calls on a fresh
connection the reference count is 0; one further `release` still leaves it
0; and no sequence of acquire/release calls ever drives it negative. -/
theorem refcount_balance (c : SharedConnection) (n : Nat) (ops : List RefOp)
    (h : c._ref_count = 0) :
    (applyRefOps c
        (List.replicate n .acq ++ List.replicate n .rel))._ref_count = 0 ∧
    (applyRefOps c
        (List.replicate n .acq ++ List.replicate (n + 1) .rel))._ref_count = 0 ∧
    0 ≤ (applyRefOps c ops)._ref_count := by
  have hacq := applyRefOps_acq_replicate c n
  refine ⟨?_, ?_, applyRefOps_nonneg c ops (by omega)⟩
  · rw [applyRefOps_append,
      applyRefOps_rel_replicate _ _ (by rw [hacq, h]; positivity), hacq, h]
    omega
  · rw [applyRefOps_append,
      applyRefOps_rel_replicate _ _ (by rw [hacq, h]; positivity), hacq, h]
    omega

/-- Witness for `refcount_balance` at N = 3 on a fresh connection. -/
theorem refcount_balance_witness :
    (applyRefOps (SharedConnection.mk0 cfgA)
        (List.replicate 3 .acq ++ List.replicate 3 .rel))._ref_count = 0 ∧
    (applyRefOps (SharedConnection.mk0 cfgA)
        (List.replicate 3 .acq ++ List.replicate (3 + 1) .rel))._ref_count = 0 ∧
    0 ≤ (applyRefOps (SharedConnection.mk0 cfgA)
        [.rel, .acq, .rel, .rel])._ref_count :=
  refcount_balance (SharedConnection.mk0 cfgA) 3 [.rel, .acq, .rel, .rel] rfl

/-- C10: `acquire()` on a connection whose session is absent raises the
"not initialized" error, but only after incrementing `_ref_count`, so the
failed call leaves the count one higher than before. -/
theorem acquire_error_after_increment (c : SharedConnection)
    (h : c.session = none) :
    (c.acquire).2 = .error (.notInit c.config.name) ∧
    (c.acquire).1._ref_count = c._ref_count + 1 := by
  unfold SharedConnection.acquire
  rw [h]
  exact ⟨rfl, rfl⟩

/-- Witness for `acquire_error_after_increment` on a fresh connection. -/
theorem acquire_error_after_increment_witness :
    ((SharedConnection.mk0 cfgA).acquire).2 =
      .error (.notInit (SharedConnection.mk0 cfgA).config.name) ∧
    ((SharedConnection.mk0 cfgA).acquire).1._ref_count =
      (SharedConnection.mk0 cfgA)._ref_count + 1 :=
  acquire_error_after_increment (SharedConnection.mk0 cfgA) rfl

/-- C5: `add_server` with a colliding name fails with "already configured"
and changes nothing at all (the previously stored config and every other
state component are untouched); with a fresh name it only inserts the
config — no connection, context manager, or flag changes. -/
theorem add_server_spec (st : PoolState) (config : MCPServerConfig) :
    ((lookupAL st._configs config.name).isSome →
      MCPConnectionPool.add_server st config =
        (st, .error (.alreadyConfigured config.name))) ∧
    (lookupAL st._configs config.name = none →
      MCPConnectionPool.add_server st config =
        ({ st with _configs := insertAL st._configs config.name config },
         .ok ())) := by
  constructor
  · intro h
    simp [MCPConnectionPool.add_server, h]
  · intro h
    simp [MCPConnectionPool.add_server, h]

/-- Witness for `add_server_spec`: duplicate add of `cfgA` on `stRun`
fails, and a fresh add of `cfgB` succeeds. -/
theorem add_server_spec_witness :
    MCPConnectionPool.add_server stRun cfgA =
      (stRun, .error (.alreadyConfigured cfgA.name)) ∧
    MCPConnectionPool.add_server stRun cfgB =
      ({ stRun with _configs := insertAL stRun._configs cfgB.name cfgB },
       .ok ()) :=
  ⟨(add_server_spec stRun cfgA).1 (by decide),
   (add_server_spec stRun cfgB).2 (by decide)⟩

/-- C4: `remove_server` fails with "not found" when the name has no config;
fails with "has active connections", leaving the whole state untouched,
when the name's connection has a positive reference count; and otherwise
drops both the config entry and any connection entry.  In the success case
the record update touches only `_configs` and `_connections`, so in
particular `_context_managers` is untouched: the transport is not closed. -/
theorem remove_server_spec (st : PoolState) (name : String) :
    (lookupAL st._configs name = none →
      MCPConnectionPool.remove_server st name =
        (st, .error (.notFound name))) ∧
    (∀ c, (lookupAL st._configs name).isSome →
      lookupAL st._connections name = some c → 0 < c._ref_count →
      MCPConnectionPool.remove_server st name =
        (st, .error (.hasActive name))) ∧
    ((lookupAL st._configs name).isSome →
      (∀ c, lookupAL st._connections name = some c → c._ref_count ≤ 0) →
      MCPConnectionPool.remove_server st name =
        ({ st with _configs := eraseAL st._configs name,
                   _connections := eraseAL st._connections name },
         .ok ())) := by
  refine ⟨?_, ?_, ?_⟩
  · intro h
    simp [MCPConnectionPool.remove_server, h]
  · intro c hcfg hconn hpos
    obtain ⟨cfg, hcfg'⟩ := Option.isSome_iff_exists.mp hcfg
    simp [MCPConnectionPool.remove_server, hcfg', hconn, hpos]
  · intro hcfg hidle
    obtain ⟨cfg, hcfg'⟩ := Option.isSome_iff_exists.mp hcfg
    cases hconn : lookupAL st._connections name with
    | none => simp [MCPConnectionPool.remove_server, hcfg', hconn]
    | some c =>
      have hle := hidle c hconn
      simp [MCPConnectionPool.remove_server, hcfg', hconn,
        show ¬(0 < c._ref_count) from by omega]

/-- Witness for `remove_server_spec`: unknown name fails on `stRun`, a
busy name fails on `stBusy`, and an idle configured name is removed from
`stRun` after a completed session use. -/
theorem remove_server_spec_witness :
    MCPConnectionPool.remove_server stRun "zeta" =
      (stRun, .error (.notFound "zeta")) ∧
    MCPConnectionPool.remove_server stBusy "alpha" =
      (stBusy, .error (.hasActive "alpha")) ∧
    MCPConnectionPool.remove_server
        (MCPConnectionPool.get_session_scoped stRun "alpha" (.ok 5)) "alpha" =
      ({ MCPConnectionPool.get_session_scoped stRun "alpha" (.ok 5) with
          _configs :=
            eraseAL (MCPConnectionPool.get_session_scoped stRun "alpha"
              (.ok 5))._configs "alpha",
          _connections :=
            eraseAL (MCPConnectionPool.get_session_scoped stRun "alpha"
              (.ok 5))._connections "alpha" },
       .ok ()) :=
  ⟨(remove_server_spec stRun "zeta").1 (by decide),
   (remove_server_spec stBusy "alpha").2.1
     { config := cfgA, session := some 7, _ref_count := 1, _connected := true }
     (by decide) (by decide) (by decide),
   (remove_server_spec
       (MCPConnectionPool.get_session_scoped stRun "alpha" (.ok 5))
       "alpha").2.2 (by decide) (by decide)⟩

/-- C6: `get_session` refuses with the not-running error whenever the pool
is stopped, regardless of configuration state, and with the not-configured
error when running but the name is unknown; both refusals return the state
unchanged (in particular `_connections`).  `call_tool` before `start()`
therefore fails with the not-running error and changes nothing. -/
theorem get_session_guards (st : PoolState) (name tool : String)
    (args : List (String × String)) (oc : StdioOutcome)
    (cr : Except PoolErr CallToolResult) :
    (st._running = false →
      MCPConnectionPool.get_session_enter st name oc =
        (st, .error .notRunning)) ∧
    (st._running = true → lookupAL st._configs name = none →
      MCPConnectionPool.get_session_enter st name oc =
        (st, .error (.notConfigured name))) ∧
    (st._running = false →
      MCPConnectionPool.call_tool st name tool args oc cr =
        (st, .error .notRunning)) := by
  refine ⟨?_, ?_, ?_⟩
  · intro h
    simp [MCPConnectionPool.get_session_enter, h]
  · intro hr hc
    simp [MCPConnectionPool.get_session_enter, hr, hc]
  · intro h
    simp [MCPConnectionPool.call_tool, MCPConnectionPool.get_session_enter, h]

/-- Witness for `get_session_guards`: a fresh pool refuses `get_session`
and `call_tool`, and the running `stRun` refuses an unconfigured name. -/
theorem get_session_guards_witness :
    MCPConnectionPool.get_session_enter PoolState.init "alpha" (.ok 3) =
      (PoolState.init, .error .notRunning) ∧
    MCPConnectionPool.get_session_enter stRun "ghost" (.ok 3) =
      (stRun, .error (.notConfigured "ghost")) ∧
    MCPConnectionPool.call_tool PoolState.init "alpha" "echo" [] (.ok 3)
        (.ok 0) =
      (PoolState.init, .error .notRunning) :=
  ⟨(get_session_guards PoolState.init "alpha" "echo" [] (.ok 3) (.ok 0)).1 rfl,
   (get_session_guards stRun "ghost" "echo" [] (.ok 3) (.ok 0)).2.1 rfl
     (by decide),
   (get_session_guards PoolState.init "alpha" "echo" [] (.ok 3) (.ok 0)).2.2
     rfl⟩

/-- C8: `add_server` never inspects the transport, so an `sse` or
`streamable_http` config with a fresh name registers successfully; the
first `get_session` for it then fails with the NotImplemented error at
connection-creation time, returning the started pool state unchanged — in
particular no connection entry is recorded. -/
theorem non_stdio_lazy_failure (st : PoolState) (config : MCPServerConfig)
    (oc : StdioOutcome)
    (ht : config.transport = .sse ∨ config.transport = .streamableHttp)
    (hfresh : lookupAL st._configs config.name = none)
    (hconn : lookupAL st._connections config.name = none) :
    (MCPConnectionPool.add_server st config).2 = .ok () ∧
    MCPConnectionPool.get_session_enter
        (MCPConnectionPool.start (MCPConnectionPool.add_server st config).1)
        config.name oc =
      (MCPConnectionPool.start (MCPConnectionPool.add_server st config).1,
       .error (.notImplementedTransport config.transport)) := by
  have hadd : (MCPConnectionPool.add_server st config).1 =
      { st with _configs := insertAL st._configs config.name config } := by
    simp [MCPConnectionPool.add_server, hfresh]
  refine ⟨by simp [MCPConnectionPool.add_server, hfresh], ?_⟩
  rw [hadd]
  have hcfg :
      lookupAL (insertAL st._configs config.name config) config.name =
        some config := by
    rw [lookupAL_insertAL]
    simp
  rcases ht with h | h <;>
    simp [MCPConnectionPool.start, MCPConnectionPool.get_session_enter, hcfg,
      hconn, MCPConnectionPool._create_connection, h]

/-- Witness for `non_stdio_lazy_failure`: registering the SSE config on a
fresh pool and then requesting a session for it. -/
theorem non_stdio_lazy_failure_witness :
    (MCPConnectionPool.add_server PoolState.init cfgSse).2 = .ok () ∧
    MCPConnectionPool.get_session_enter
        (MCPConnectionPool.start
          (MCPConnectionPool.add_server PoolState.init cfgSse).1)
        cfgSse.name (.ok 1) =
      (MCPConnectionPool.start
        (MCPConnectionPool.add_server PoolState.init cfgSse).1,
       .error (.notImplementedTransport cfgSse.transport)) :=
  non_stdio_lazy_failure PoolState.init cfgSse (.ok 1) (Or.inl rfl)
    (by decide) (by decide)

/-- C2 counterexample: on the running pool `stRun` (only `cfgA`
configured, nothing connected, no context managers), a creation attempt
for "alpha" that fails at `initialize()` propagates the error and records
no connection entry, but the resulting pool state is *not* "exactly as
before the attempt": the transport and session context managers stored
before the handshake remain behind in `_context_managers`. -/
theorem create_failure_mutates_context_managers :
    (MCPConnectionPool.get_session_enter stRun "alpha" .initFail).2 =
      .error .initFailed ∧
    (MCPConnectionPool.get_session_enter stRun "alpha"
        .initFail).1._connections = stRun._connections ∧
    (MCPConnectionPool.get_session_enter stRun "alpha" .initFail).1 ≠ stRun ∧
    "alpha" ∈ (MCPConnectionPool.get_session_enter stRun "alpha"
        .initFail).1._context_managers ∧
    "alpha_session" ∈ (MCPConnectionPool.get_session_enter stRun "alpha"
        .initFail).1._context_managers := by
  decide

/-- C2 amended: when connection creation fails (at the spawn, the session
construction, or the handshake) for a name with no live connection, the
error propagates to the `get_session` caller with no retry and the
`_connections` map — as well as `_configs` and `_running` — is exactly as
before; the whole state is unchanged only for a spawn-stage failure, since
later failures leave transport/session context-manager entries behind. -/
theorem create_failure_no_connection_entry (st : PoolState) (name : String)
    (cfg : MCPServerConfig) (oc : StdioOutcome)
    (hrun : st._running = true)
    (hcfg : lookupAL st._configs name = some cfg)
    (ht : cfg.transport = .stdio)
    (hlive : ∀ c, lookupAL st._connections name = some c →
      c.is_connected = false)
    (hoc : oc = .spawnFail ∨ oc = .sessionEnterFail ∨ oc = .initFail) :
    (∃ e, (MCPConnectionPool.get_session_enter st name oc).2 =
      .error e) ∧
    (MCPConnectionPool.get_session_enter st name oc).1._connections =
      st._connections ∧
    (MCPConnectionPool.get_session_enter st name oc).1._configs =
      st._configs ∧
    (MCPConnectionPool.get_session_enter st name oc).1._running =
      st._running ∧
    (oc = .spawnFail →
      (MCPConnectionPool.get_session_enter st name oc).1 = st) := by
  cases hc : lookupAL st._connections name with
  | none =>
    rcases hoc with h | h | h <;> subst h <;>
      simp [MCPConnectionPool.get_session_enter, hrun, hcfg, hc,
        MCPConnectionPool._create_connection, ht]
  | some c =>
    have hlc := hlive c hc
    rcases hoc with h | h | h <;> subst h <;>
      simp [MCPConnectionPool.get_session_enter, hrun, hcfg, hc, hlc,
        MCPConnectionPool._create_connection, ht]

/-- Witness for `create_failure_no_connection_entry`: the handshake-stage
failure for "alpha" on `stRun`. -/
theorem create_failure_no_connection_entry_witness :
    (∃ e, (MCPConnectionPool.get_session_enter stRun "alpha" .initFail).2 =
      .error e) ∧
    (MCPConnectionPool.get_session_enter stRun "alpha"
        .initFail).1._connections = stRun._connections ∧
    (MCPConnectionPool.get_session_enter stRun "alpha" .initFail).1._configs =
      stRun._configs ∧
    (MCPConnectionPool.get_session_enter stRun "alpha" .initFail).1._running =
      stRun._running ∧
    (StdioOutcome.initFail = .spawnFail →
      (MCPConnectionPool.get_session_enter stRun "alpha" .initFail).1 =
        stRun) :=
  create_failure_no_connection_entry stRun "alpha" cfgA .initFail rfl
    (by decide) rfl
    (by
      intro c h
      rw [show lookupAL stRun._connections "alpha" =
        (none : Option SharedConnection) from rfl] at h
      exact Option.noConfusion h)
    (Or.inr (Or.inr rfl))

/-- C7: on a pool whose configured names are distinct (always true of a
Python dict's keys), `get_all_tools` returns one entry per configured name,
in configuration order; each name's entry is `toolsEntry` — empty when the
scoped session or the `list_tools` step for that name fails, the actual
tool list when both succeed.  The function is total: per-name failures are
caught, never re-raised. -/
theorem get_all_tools_total (st : PoolState) (o : String → StdioOutcome)
    (lt : String → Except PoolErr (List Tool))
    (hnd : (st._configs.map Prod.fst).Nodup) :
    (MCPConnectionPool.get_all_tools st o lt).2.map Prod.fst =
      st._configs.map Prod.fst ∧
    ∀ name ∈ st._configs.map Prod.fst,
      lookupAL (MCPConnectionPool.get_all_tools st o lt).2 name =
        some (MCPConnectionPool.toolsEntry st o lt name) ∧
      (∀ e, lt name = .error e →
        lookupAL (MCPConnectionPool.get_all_tools st o lt).2 name =
          some []) ∧
      (∀ e,
        (MCPConnectionPool.get_session_enter st name (o name)).2 =
          .error e →
        lookupAL (MCPConnectionPool.get_all_tools st o lt).2 name =
          some []) ∧
      (∀ s ts,
        (MCPConnectionPool.get_session_enter st name (o name)).2 = .ok s →
        lt name = .ok ts →
        lookupAL (MCPConnectionPool.get_all_tools st o lt).2 name =
          some ts) := by
  have hres : (MCPConnectionPool.get_all_tools st o lt).2 =
      (st._configs.map Prod.fst).map
        (fun nm => (nm, MCPConnectionPool.toolsEntry st o lt nm)) := by
    unfold MCPConnectionPool.get_all_tools
    rw [get_all_tools_go_spec o lt (st._configs.map Prod.fst) st st [] hnd
      rfl rfl (fun _ _ => rfl)]
    rw [foldl_insertAL_fresh (fun nm => MCPConnectionPool.toolsEntry st o lt
      nm) (st._configs.map Prod.fst) [] hnd (fun _ _ => rfl)]
    simp
  constructor
  · rw [hres]
    simp
  · intro name hname
    have hlook :
        lookupAL (MCPConnectionPool.get_all_tools st o lt).2 name =
          some (MCPConnectionPool.toolsEntry st o lt name) := by
      rw [hres]
      exact lookupAL_map_pairing _ _ name hname
    refine ⟨hlook, ?_, ?_, ?_⟩
    · intro e he
      rw [hlook]
      unfold MCPConnectionPool.toolsEntry
      cases hE : (MCPConnectionPool.get_session_enter st name (o name)).2 with
      | error e' => rfl
      | ok s => rw [he]
    · intro e he
      rw [hlook]
      unfold MCPConnectionPool.toolsEntry
      rw [he]
    · intro s ts hs hts
      rw [hlook]
      unfold MCPConnectionPool.toolsEntry
      rw [hs, hts]

/-- Witness for `get_all_tools_total` on the two-server pool `stAB` where
"alpha" is healthy and "beta" fails its handshake. -/
theorem get_all_tools_total_witness :
    (MCPConnectionPool.get_all_tools stAB outcomesW listToolsW).2.map
        Prod.fst = stAB._configs.map Prod.fst ∧
    lookupAL (MCPConnectionPool.get_all_tools stAB outcomesW listToolsW).2
        "alpha" =
      some (MCPConnectionPool.toolsEntry stAB outcomesW listToolsW "alpha") ∧
    lookupAL (MCPConnectionPool.get_all_tools stAB outcomesW listToolsW).2
        "beta" = some [] :=
  ⟨(get_all_tools_total stAB outcomesW listToolsW (by decide)).1,
   ((get_all_tools_total stAB outcomesW listToolsW (by decide)).2 "alpha"
     (by decide)).1,
   ((get_all_tools_total stAB outcomesW listToolsW (by decide)).2 "beta"
     (by decide)).2.2.1 PoolErr.initFailed (by decide)⟩

theorem connsCovered_add_server (st : PoolState) (c : MCPServerConfig)
    (h : ∀ k, (lookupAL st._connections k).isSome →
      (lookupAL st._configs k).isSome) :
    ∀ k, (lookupAL (MCPConnectionPool.add_server st c).1._connections k).isSome →
      (lookupAL (MCPConnectionPool.add_server st c).1._configs k).isSome := by
  unfold MCPConnectionPool.add_server
  by_cases hc : (lookupAL st._configs c.name).isSome
  · rw [if_pos hc]
    exact h
  · rw [if_neg hc]
    intro k hk
    show (lookupAL (insertAL st._configs c.name c) k).isSome
    rw [lookupAL_insertAL]
    by_cases hkc : k = c.name
    · simp [hkc]
    · rw [if_neg hkc]
      exact h k hk

theorem connsCovered_remove_server (st : PoolState) (name : String)
    (h : ∀ k, (lookupAL st._connections k).isSome →
      (lookupAL st._configs k).isSome) :
    ∀ k,
      (lookupAL (MCPConnectionPool.remove_server st name).1._connections
        k).isSome →
      (lookupAL (MCPConnectionPool.remove_server st name).1._configs
        k).isSome := by
  unfold MCPConnectionPool.remove_server
  by_cases h1 : (lookupAL st._configs name).isNone
  · rw [if_pos h1]
    exact h
  · rw [if_neg h1]
    by_cases h2 : (match lookupAL st._connections name with
        | some c => decide (0 < c._ref_count)
        | none => false) = true
    · rw [if_pos h2]
      exact h
    · rw [if_neg h2]
      intro k hk
      show (lookupAL (eraseAL st._configs name) k).isSome
      rw [lookupAL_eraseAL] at hk ⊢
      by_cases hkn : k = name
      · rw [if_pos hkn] at hk
        cases hk
      · rw [if_neg hkn] at hk ⊢
        exact h k hk

theorem connsCovered_acquire_stored (st : PoolState) (name : String)
    (hname : (lookupAL st._configs name).isSome)
    (h : ∀ k, (lookupAL st._connections k).isSome →
      (lookupAL st._configs k).isSome) :
    ∀ k,
      (lookupAL (MCPConnectionPool.acquire_stored st name).1._connections
        k).isSome →
      (lookupAL (MCPConnectionPool.acquire_stored st name).1._configs
        k).isSome := by
  unfold MCPConnectionPool.acquire_stored
  cases hcn : lookupAL st._connections name with
  | none => exact h
  | some c =>
    intro k hk
    show (lookupAL st._configs k).isSome
    replace hk :
        (lookupAL (insertAL st._connections name (c.acquire).1) k).isSome :=
      hk
    rw [lookupAL_insertAL] at hk
    by_cases hkn : k = name
    · rw [hkn]
      exact hname
    · rw [if_neg hkn] at hk
      exact h k hk

theorem connsCovered_enter (st : PoolState) (name : String) (oc : StdioOutcome)
    (h : ∀ k, (lookupAL st._connections k).isSome →
      (lookupAL st._configs k).isSome) :
    ∀ k,
      (lookupAL
        (MCPConnectionPool.get_session_enter st name oc).1._connections
        k).isSome →
      (lookupAL (MCPConnectionPool.get_session_enter st name oc).1._configs
        k).isSome := by
  unfold MCPConnectionPool.get_session_enter
  by_cases h1 : st._running = false
  · rw [if_pos h1]
    exact h
  rw [if_neg h1]
  by_cases h2 : (lookupAL st._configs name).isNone
  · rw [if_pos h2]
    exact h
  rw [if_neg h2]
  have hname : (lookupAL st._configs name).isSome := by
    cases hx : lookupAL st._configs name
    · rw [hx] at h2
      simp at h2
    · simp
  by_cases h3 : (match lookupAL st._connections name with
      | none => true
      | some c => !c.is_connected) = true
  · rw [if_pos h3]
    rcases hcr : MCPConnectionPool._create_connection st name oc with ⟨st1, r⟩
    have hf := _create_connection_fields st name oc
    rw [hcr] at hf
    have hcg : st1._configs = st._configs := hf.1
    have hcn : st1._connections = st._connections := hf.2.1
    cases r with
    | error e =>
      intro k hk
      show (lookupAL st1._configs k).isSome
      rw [hcg]
      replace hk : (lookupAL st1._connections k).isSome := hk
      rw [hcn] at hk
      exact h k hk
    | ok conn =>
      apply connsCovered_acquire_stored
      · show (lookupAL st1._configs name).isSome
        rw [hcg]
        exact hname
      · intro k hk
        show (lookupAL st1._configs k).isSome
        rw [hcg]
        replace hk :
            (lookupAL (insertAL st1._connections name conn) k).isSome := hk
        rw [lookupAL_insertAL] at hk
        by_cases hkn : k = name
        · rw [hkn]
          exact hname
        · rw [if_neg hkn] at hk
          rw [hcn] at hk
          exact h k hk
  · rw [if_neg h3]
    exact connsCovered_acquire_stored st name hname h

theorem connsCovered_exit (st : PoolState) (name : String)
    (h : ∀ k, (lookupAL st._connections k).isSome →
      (lookupAL st._configs k).isSome) :
    ∀ k,
      (lookupAL (MCPConnectionPool.get_session_exit st name)._connections
        k).isSome →
      (lookupAL (MCPConnectionPool.get_session_exit st name)._configs
        k).isSome := by
  unfold MCPConnectionPool.get_session_exit
  cases hcn : lookupAL st._connections name with
  | none => exact h
  | some c =>
    intro k hk
    show (lookupAL st._configs k).isSome
    replace hk :
        (lookupAL (insertAL st._connections name (c.release).1) k).isSome :=
      hk
    rw [lookupAL_insertAL] at hk
    by_cases hkn : k = name
    · rw [hkn]
      exact h name (by rw [hcn]; rfl)
    · rw [if_neg hkn] at hk
      exact h k hk

theorem connsCovered_scoped (st : PoolState) (name : String)
    (oc : StdioOutcome)
    (h : ∀ k, (lookupAL st._connections k).isSome →
      (lookupAL st._configs k).isSome) :
    ∀ k,
      (lookupAL
        (MCPConnectionPool.get_session_scoped st name oc)._connections
        k).isSome →
      (lookupAL (MCPConnectionPool.get_session_scoped st name oc)._configs
        k).isSome := by
  unfold MCPConnectionPool.get_session_scoped
  rcases hen : MCPConnectionPool.get_session_enter st name oc with ⟨st1, r⟩
  have h1 := connsCovered_enter st name oc h
  rw [hen] at h1
  cases r with
  | error e => exact h1
  | ok s => exact connsCovered_exit st1 name h1

theorem connsCovered_close (st : PoolState) (nm : String)
    (h : ∀ k, (lookupAL st._connections k).isSome →
      (lookupAL st._configs k).isSome) :
    ∀ k,
      (lookupAL (MCPConnectionPool._close_connection st nm)._connections
        k).isSome →
      (lookupAL (MCPConnectionPool._close_connection st nm)._configs
        k).isSome := by
  unfold MCPConnectionPool._close_connection
  by_cases h1 : (lookupAL st._connections nm).isNone
  · rw [if_pos h1]
    exact h
  · rw [if_neg h1]
    intro k hk
    show (lookupAL st._configs k).isSome
    replace hk : (lookupAL (eraseAL st._connections nm) k).isSome := hk
    rw [lookupAL_eraseAL] at hk
    by_cases hkn : k = nm
    · rw [if_pos hkn] at hk
      cases hk
    · rw [if_neg hkn] at hk
      exact h k hk

theorem connsCovered_foldl_close (l : List String) :
    ∀ st : PoolState,
    (∀ k, (lookupAL st._connections k).isSome →
      (lookupAL st._configs k).isSome) →
    ∀ k,
      (lookupAL
        (l.foldl MCPConnectionPool._close_connection st)._connections
        k).isSome →
      (lookupAL (l.foldl MCPConnectionPool._close_connection st)._configs
        k).isSome := by
  induction l with
  | nil => intro st h; exact h
  | cons nm t ih =>
    intro st h
    exact ih (MCPConnectionPool._close_connection st nm)
      (connsCovered_close st nm h)

theorem connsCovered_apply_op (st : PoolState) (op : PoolOp)
    (h : ∀ k, (lookupAL st._connections k).isSome →
      (lookupAL st._configs k).isSome) :
    ∀ k, (lookupAL (apply_op st op)._connections k).isSome →
      (lookupAL (apply_op st op)._configs k).isSome := by
  cases op with
  | addServer c => exact connsCovered_add_server st c h
  | removeServer n => exact connsCovered_remove_server st n h
  | getSession n oc => exact connsCovered_scoped st n oc h
  | startPool => exact h
  | stopPool =>
    exact connsCovered_foldl_close _
      { st with _running := false, _cleanup_tasks := [] } h

/-- C9: in every pool state reachable from a fresh pool by the public
operations (`add_server`, `remove_server`, a scoped `get_session` use,
`start`, `stop`), every key of the `_connections` map is also a key of the
`_configs` map. -/
theorem connections_subset_configs (ops : List PoolOp) (k : String)
    (h : (lookupAL (run_ops ops)._connections k).isSome) :
    (lookupAL (run_ops ops)._configs k).isSome := by
  suffices hall : ∀ (l : List PoolOp) (st : PoolState),
      (∀ k', (lookupAL st._connections k').isSome →
        (lookupAL st._configs k').isSome) →
      ∀ k', (lookupAL (l.foldl apply_op st)._connections k').isSome →
        (lookupAL (l.foldl apply_op st)._configs k').isSome by
    exact hall ops PoolState.init (fun k' hk' => by cases hk') k h
  intro l
  induction l with
  | nil => intro st h0; exact h0
  | cons op t ih =>
    intro st h0
    exact ih (apply_op st op) (connsCovered_apply_op st op h0)

/-- Witness for `connections_subset_configs`: after add + start + one
session use, "alpha" has a connection entry, and the theorem yields its
config entry. -/
theorem connections_subset_configs_witness :
    (lookupAL (run_ops [.addServer cfgA, .startPool,
        .getSession "alpha" (.ok 7)])._connections "alpha").isSome ∧
    (lookupAL (run_ops [.addServer cfgA, .startPool,
        .getSession "alpha" (.ok 7)])._configs "alpha").isSome :=
  ⟨by decide,
   connections_subset_configs
     [.addServer cfgA, .startPool, .getSession "alpha" (.ok 7)] "alpha"
     (by decide)⟩

theorem countP_set_aux {α : Type} (p : α → Bool) (l : List α) (n : Nat)
    (a b : α) (h : l.get? n = some a) :
    (l.set n b).countP p + (if p a then 1 else 0) =
      l.countP p + (if p b then 1 else 0) := by
  induction l generalizing n with
  | nil => cases h
  | cons hd t ih =>
    cases n with
    | zero =>
      simp only [List.get?] at h
      injection h with h
      subst h
      simp only [List.set, List.countP_cons]
      by_cases hp : p hd <;> by_cases hq : p b <;> simp [hp, hq]
    | succ m =>
      simp only [List.get?] at h
      simp only [List.set, List.countP_cons]
      have := ih m h
      omega

theorem cInv_init (n : Nat) : CInv n (cInit n) := by
  refine ⟨by simp [cInit], Or.inl ⟨rfl, rfl, ?_, ?_, rfl, rfl, rfl, rfl⟩⟩
  · apply List.countP_eq_zero.mpr
    intro a ha
    rw [List.eq_of_mem_replicate ha]
    simp [inCreate]
  · apply List.countP_eq_zero.mpr
    intro a ha
    rw [List.eq_of_mem_replicate ha]
    simp

theorem cInv_step (n : Nat) (s : CState) (i : Nat) (h : CInv n s) :
    CInv n (cStep s i) := by
  obtain ⟨hlen, hph⟩ := h
  cases hget : s.tasks[i]? with
  | none =>
    have hnew : cStep s i = s := by simp [cStep, hget]
    rw [hnew]
    exact ⟨hlen, hph⟩
  | some pc =>
    have hmem : pc ∈ s.tasks := List.get?_mem (by simpa using hget)
    have hset : ∀ (p : TaskPC → Bool) (x : TaskPC),
        (s.tasks.set i x).countP p + (if p pc then 1 else 0) =
          s.tasks.countP p + (if p x then 1 else 0) :=
      fun p x => countP_set_aux p s.tasks i pc x (by simpa using hget)
    have hsetFF : ∀ (p : TaskPC → Bool) (x : TaskPC), p pc = false →
        p x = false →
        (s.tasks.set i x).countP p = s.tasks.countP p := by
      intro p x hp hx
      have hq := hset p x
      rw [hp, hx] at hq
      simpa using hq
    have hsetTT : ∀ (p : TaskPC → Bool) (x : TaskPC), p pc = true →
        p x = true →
        (s.tasks.set i x).countP p = s.tasks.countP p := by
      intro p x hp hx
      have hq := hset p x
      rw [hp, hx] at hq
      simp at hq
      omega
    have hsetFT : ∀ (p : TaskPC → Bool) (x : TaskPC), p pc = false →
        p x = true →
        (s.tasks.set i x).countP p = s.tasks.countP p + 1 := by
      intro p x hp hx
      have hq := hset p x
      rw [hp, hx] at hq
      simp at hq
      omega
    have hsetTF : ∀ (p : TaskPC → Bool) (x : TaskPC), p pc = true →
        p x = false →
        (s.tasks.set i x).countP p + 1 = s.tasks.countP p := by
      intro p x hp hx
      have hq := hset p x
      rw [hp, hx] at hq
      simp at hq
      omega
    have hleSpawn : s.tasks.countP (fun pc => pastSpawn pc) ≤
        s.tasks.countP (fun pc => inCreate pc) :=
      List.countP_mono_left (fun a _ ha => by
        cases a <;> simp_all [pastSpawn, inCreate])
    have hleHand : s.tasks.countP (fun pc => pc == .handshaken) ≤
        s.tasks.countP (fun pc => inCreate pc) :=
      List.countP_mono_left (fun a _ ha => by
        cases a <;> simp_all [inCreate])
    have hleDone : s.tasks.countP (fun pc => pc == .done) ≤
        s.tasks.countP (fun pc => pc == .acquiring || pc == .done) :=
      List.countP_mono_left (fun a _ ha => by
        cases a <;> simp_all)
    cases pc with
    | ready =>
      cases hlock : s.lock with
      | some j =>
        have hnew : cStep s i = s := by simp [cStep, hget, hlock]
        rw [hnew]
        exact ⟨hlen, hph⟩
      | none =>
        cases hcl : s.connLive with
        | true =>
          rcases hph with hA | hB | hC
          · rw [hA.2.1] at hcl
            cases hcl
          · exact absurd hlock hB.1
          · obtain ⟨hC1, hC2, hC3, hC4, hC5, hC6, hC7⟩ := hC
            have hnew : cStep s i =
                { s with tasks := s.tasks.set i .acquiring } := by
              simp [cStep, hget, hlock, hcl]
            rw [hnew]
            have e1 := hsetFF (fun pc => inCreate pc) .acquiring rfl rfl
            have e5 := hsetFF (fun pc => pc == .done) .acquiring rfl rfl
            refine ⟨?_, Or.inr (Or.inr ⟨hC1, hC2, ?_, hC4, hC5, ?_, hC7⟩)⟩
            · show (s.tasks.set i TaskPC.acquiring).length = n
              rw [List.length_set]
              exact hlen
            · show (s.tasks.set i TaskPC.acquiring).countP
                (fun pc => inCreate pc) = 0
              rw [e1]
              exact hC3
            · show s.refCount = (s.tasks.set i TaskPC.acquiring).countP
                (fun pc => pc == .done)
              rw [e5]
              exact hC6
        | false =>
          rcases hph with hA | hB | hC
          · obtain ⟨hA1, hA2, hA3, hA4, hA5, hA6, hA7, hA8⟩ := hA
            have hnew : cStep s i =
                { s with
                  tasks := s.tasks.set i .creating,
                  lock := some i } := by
              simp [cStep, hget, hlock, hcl]
            rw [hnew]
            have e1 := hsetFT (fun pc => inCreate pc) .creating rfl rfl
            have e2 := hsetFF (fun pc => pc == .acquiring || pc == .done)
              .creating rfl rfl
            have e3 := hsetFF (fun pc => pastSpawn pc) .creating rfl rfl
            have e4 := hsetFF (fun pc => pc == .handshaken) .creating rfl rfl
            refine ⟨?_, Or.inr (Or.inl
              ⟨by simp, hA2, ?_, ?_, ?_, ?_, hA7, hA8⟩)⟩
            · show (s.tasks.set i TaskPC.creating).length = n
              rw [List.length_set]
              exact hlen
            · show (s.tasks.set i TaskPC.creating).countP
                (fun pc => inCreate pc) = 1
              rw [e1]
              omega
            · show (s.tasks.set i TaskPC.creating).countP
                (fun pc => pc == .acquiring || pc == .done) = 0
              rw [e2]
              exact hA4
            · show s.spawnCount = (s.tasks.set i TaskPC.creating).countP
                (fun pc => pastSpawn pc)
              rw [e3]
              omega
            · show s.handshakeCount = (s.tasks.set i TaskPC.creating).countP
                (fun pc => pc == .handshaken)
              rw [e4]
              omega
          · exact absurd hlock hB.1
          · rw [hC.2.1] at hcl
            cases hcl
    | creating =>
      have hpos : 0 < s.tasks.countP (fun pc => inCreate pc) :=
        List.countP_pos_iff.mpr ⟨.creating, hmem, rfl⟩
      rcases hph with hA | hB | hC
      · exfalso
        have := hA.2.2.1
        omega
      · obtain ⟨hB1, hB2, hB3, hB4, hB5, hB6, hB7, hB8⟩ := hB
        have hnew : cStep s i =
            { s with
              tasks := s.tasks.set i .spawned,
              spawnCount := s.spawnCount + 1 } := by
          simp [cStep, hget]
        rw [hnew]
        have e1 := hsetTT (fun pc => inCreate pc) .spawned rfl rfl
        have e2 := hsetFF (fun pc => pc == .acquiring || pc == .done)
          .spawned rfl rfl
        have e3 := hsetFT (fun pc => pastSpawn pc) .spawned rfl rfl
        have e4 := hsetFF (fun pc => pc == .handshaken) .spawned rfl rfl
        refine ⟨?_, Or.inr (Or.inl ⟨hB1, hB2, ?_, ?_, ?_, ?_, hB7, hB8⟩)⟩
        · show (s.tasks.set i TaskPC.spawned).length = n
          rw [List.length_set]
          exact hlen
        · show (s.tasks.set i TaskPC.spawned).countP
            (fun pc => inCreate pc) = 1
          rw [e1]
          exact hB3
        · show (s.tasks.set i TaskPC.spawned).countP
            (fun pc => pc == .acquiring || pc == .done) = 0
          rw [e2]
          exact hB4
        · show s.spawnCount + 1 = (s.tasks.set i TaskPC.spawned).countP
            (fun pc => pastSpawn pc)
          rw [e3]
          omega
        · show s.handshakeCount = (s.tasks.set i TaskPC.spawned).countP
            (fun pc => pc == .handshaken)
          rw [e4]
          exact hB6
      · exfalso
        have := hC.2.2.1
        omega
    | spawned =>
      have hpos : 0 < s.tasks.countP (fun pc => inCreate pc) :=
        List.countP_pos_iff.mpr ⟨.spawned, hmem, rfl⟩
      rcases hph with hA | hB | hC
      · exfalso
        have := hA.2.2.1
        omega
      · obtain ⟨hB1, hB2, hB3, hB4, hB5, hB6, hB7, hB8⟩ := hB
        have hnew : cStep s i =
            { s with
              tasks := s.tasks.set i .handshaken,
              handshakeCount := s.handshakeCount + 1 } := by
          simp [cStep, hget]
        rw [hnew]
        have e1 := hsetTT (fun pc => inCreate pc) .handshaken rfl rfl
        have e2 := hsetFF (fun pc => pc == .acquiring || pc == .done)
          .handshaken rfl rfl
        have e3 := hsetTT (fun pc => pastSpawn pc) .handshaken rfl rfl
        have e4 := hsetFT (fun pc => pc == .handshaken) .handshaken rfl rfl
        refine ⟨?_, Or.inr (Or.inl ⟨hB1, hB2, ?_, ?_, ?_, ?_, hB7, hB8⟩)⟩
        · show (s.tasks.set i TaskPC.handshaken).length = n
          rw [List.length_set]
          exact hlen
        · show (s.tasks.set i TaskPC.handshaken).countP
            (fun pc => inCreate pc) = 1
          rw [e1]
          exact hB3
        · show (s.tasks.set i TaskPC.handshaken).countP
            (fun pc => pc == .acquiring || pc == .done) = 0
          rw [e2]
          exact hB4
        · show s.spawnCount = (s.tasks.set i TaskPC.handshaken).countP
            (fun pc => pastSpawn pc)
          rw [e3]
          exact hB5
        · show s.handshakeCount + 1 =
            (s.tasks.set i TaskPC.handshaken).countP
              (fun pc => pc == .handshaken)
          rw [e4]
          omega
      · exfalso
        have := hC.2.2.1
        omega
    | handshaken =>
      have hpos : 0 < s.tasks.countP (fun pc => inCreate pc) :=
        List.countP_pos_iff.mpr ⟨.handshaken, hmem, rfl⟩
      rcases hph with hA | hB | hC
      · exfalso
        have := hA.2.2.1
        omega
      · obtain ⟨hB1, hB2, hB3, hB4, hB5, hB6, hB7, hB8⟩ := hB
        have hposS : 0 < s.tasks.countP (fun pc => pastSpawn pc) :=
          List.countP_pos_iff.mpr ⟨.handshaken, hmem, rfl⟩
        have hposH : 0 < s.tasks.countP (fun pc => pc == .handshaken) :=
          List.countP_pos_iff.mpr ⟨.handshaken, hmem, rfl⟩
        have hnew : cStep s i =
            { s with
              tasks := s.tasks.set i .acquiring,
              connLive := true,
              lock := none } := by
          simp [cStep, hget]
        rw [hnew]
        have e1 := hsetTF (fun pc => inCreate pc) .acquiring rfl rfl
        have e5 := hsetFF (fun pc => pc == .done) .acquiring rfl rfl
        refine ⟨?_, Or.inr (Or.inr ⟨rfl, rfl, ?_, ?_, ?_, ?_, hB8⟩)⟩
        · show (s.tasks.set i TaskPC.acquiring).length = n
          rw [List.length_set]
          exact hlen
        · show (s.tasks.set i TaskPC.acquiring).countP
            (fun pc => inCreate pc) = 0
          omega
        · show s.spawnCount = 1
          omega
        · show s.handshakeCount = 1
          omega
        · show s.refCount = (s.tasks.set i TaskPC.acquiring).countP
            (fun pc => pc == .done)
          rw [e5]
          omega
      · exfalso
        have := hC.2.2.1
        omega
    | acquiring =>
      have hpos :
          0 < s.tasks.countP (fun pc => pc == .acquiring || pc == .done) :=
        List.countP_pos_iff.mpr ⟨.acquiring, hmem, rfl⟩
      rcases hph with hA | hB | hC
      · exfalso
        have := hA.2.2.2.1
        omega
      · exfalso
        have := hB.2.2.2.1
        omega
      · obtain ⟨hC1, hC2, hC3, hC4, hC5, hC6, hC7⟩ := hC
        have hnew : cStep s i =
            { s with
              tasks := s.tasks.set i .done,
              refCount := s.refCount + 1 } := by
          simp [cStep, hget, hC2]
        rw [hnew]
        have e1 := hsetFF (fun pc => inCreate pc) .done rfl rfl
        have e5 := hsetFT (fun pc => pc == .done) .done rfl rfl
        refine ⟨?_, Or.inr (Or.inr ⟨hC1, hC2, ?_, hC4, hC5, ?_, hC7⟩)⟩
        · show (s.tasks.set i TaskPC.done).length = n
          rw [List.length_set]
          exact hlen
        · show (s.tasks.set i TaskPC.done).countP
            (fun pc => inCreate pc) = 0
          rw [e1]
          exact hC3
        · show s.refCount + 1 = (s.tasks.set i TaskPC.done).countP
            (fun pc => pc == .done)
          rw [e5]
          omega
    | done =>
      have hnew : cStep s i = s := by simp [cStep, hget]
      rw [hnew]
      exact ⟨hlen, hph⟩

/-- C1: for every number N > 0 of concurrent `get_session(name)` callers on
a running pool where the name is configured, no connection exists yet, and
creation succeeds, and for every cooperative schedule under which all
callers finish: exactly one transport spawn and one `initialize` handshake
are executed, no caller's `acquire()` fails, and the reference count equals
N — every caller acquired the one created session.  The pool lock makes the
check-and-create region exclusive, so the model's schedules cover every
interleaving of the suspension points. -/
theorem concurrent_get_session_single_creation (n : Nat) (sched : List Nat)
    (hn : 0 < n)
    (hdone : ∀ pc ∈ (cRun n sched).tasks, pc = .done) :
    (cRun n sched).spawnCount = 1 ∧ (cRun n sched).handshakeCount = 1 ∧
    (cRun n sched).acquireFails = 0 ∧ (cRun n sched).refCount = n := by
  have hinv : CInv n (cRun n sched) := by
    have hfold : ∀ (l : List Nat) (s : CState), CInv n s →
        CInv n (l.foldl cStep s) := by
      intro l
      induction l with
      | nil => intro s hs; exact hs
      | cons j t ih => intro s hs; exact ih _ (cInv_step n s j hs)
    exact hfold sched (cInit n) (cInv_init n)
  obtain ⟨hlen, hph⟩ := hinv
  have hdcount :
      (cRun n sched).tasks.countP (fun pc => pc == .done) = n := by
    rw [List.countP_eq_length.mpr, hlen]
    intro a ha
    rw [hdone a ha]
    rfl
  have hdle : (cRun n sched).tasks.countP (fun pc => pc == .done) ≤
      (cRun n sched).tasks.countP
        (fun pc => pc == .acquiring || pc == .done) :=
    List.countP_mono_left (fun a _ ha => by cases a <;> simp_all)
  rcases hph with hA | hB | hC
  · exfalso
    have := hA.2.2.2.1
    omega
  · exfalso
    have := hB.2.2.2.1
    omega
  · obtain ⟨hC1, hC2, hC3, hC4, hC5, hC6, hC7⟩ := hC
    exact ⟨hC4, hC5, hC7, by omega⟩

/-- Witness for `concurrent_get_session_single_creation`: two concurrent
callers; the schedule runs caller 0 to completion, then caller 1, which
fast-paths to the existing connection. -/
theorem concurrent_get_session_single_creation_witness :
    0 < 2 ∧
    (∀ pc ∈ (cRun 2 [0, 0, 0, 0, 0, 1, 1]).tasks, pc = .done) ∧
    ((cRun 2 [0, 0, 0, 0, 0, 1, 1]).spawnCount = 1 ∧
     (cRun 2 [0, 0, 0, 0, 0, 1, 1]).handshakeCount = 1 ∧
     (cRun 2 [0, 0, 0, 0, 0, 1, 1]).acquireFails = 0 ∧
     (cRun 2 [0, 0, 0, 0, 0, 1, 1]).refCount = 2) :=
  ⟨by decide, by decide,
   concurrent_get_session_single_creation 2 [0, 0, 0, 0, 0, 1, 1]
     (by decide) (by decide)⟩

end MCPPool
